import Mathlib

/-!
Shallow embedding of src/virtManager/engine.py from virt-manager: the
bounded priority tick queue and its worker thread, the window counter and
application lifecycle logic, the CLI command dispatcher, VM lookup from a
CLI string, and the connection registry.  Definitions are translated from
the Python source; observation fields (log counters, event logs) record
side effects so that trace properties can be stated.
-/

namespace VirtEngine

set_option maxRecDepth 16000

/-- engine.py line 49: (PRIO_HIGH, PRIO_LOW) = range(1, 3). -/
def PRIO_HIGH : Nat := 1

/-- engine.py line 50. -/
def PRIO_LOW : Nat := 2

/-- One entry of the tick PriorityQueue, the tuple
(isprio and PRIO_HIGH or PRIO_LOW, self.tick counter, obj, kwargs).
The kwargs play no role in the claims and are omitted; obj is modelled as a
connection identifier. -/
structure WorkItem where
  prio : Nat
  seq : Nat
  conn : Nat
deriving DecidableEq, Repr

/-- The engine state touched by the tick-queue logic.  slowLogCount counts
executions of the logging.debug line for a slow tick thread (engine.py line
334) and seqLog records every sequence number handed to put, in order; both
are observations of side effects, not extra program state. -/
structure EngineState where
  maxsize : Nat
  tickQueue : List WorkItem
  tickCounter : Nat
  tickThreadSlow : Bool
  slowLogCount : Nat
  seqLog : List Nat
deriving DecidableEq, Repr

/-- engine.py lines 92-98: self.tick counter = 0, tick thread slow flag =
False, tick queue = queue.PriorityQueue(100). -/
def engineInit : EngineState :=
  { maxsize := 100, tickQueue := [], tickCounter := 0, tickThreadSlow := false,
    slowLogCount := 0, seqLog := [] }

/-- queue.Queue.full(): with maxsize > 0, full iff maxsize <= qsize(). -/
def tickQueueFull (s : EngineState) : Bool :=
  decide (0 < s.maxsize) && decide (s.maxsize ≤ s.tickQueue.length)

/-- engine.py lines 331-341, vmmEngine. add obj to tick queue: if the queue
is full, log the degraded-mode notice once (guarded by the slow flag) and
drop the request; otherwise increment the tick counter and put the item. -/
def addObjToTickQueue (s : EngineState) (conn : Nat) (isprio : Bool) :
    EngineState :=
  if tickQueueFull s then
    if !s.tickThreadSlow then
      { s with tickThreadSlow := true, slowLogCount := s.slowLogCount + 1 }
    else s
  else
    { s with
      tickCounter := s.tickCounter + 1,
      tickQueue := s.tickQueue ++
        [{ prio := if isprio then PRIO_HIGH else PRIO_LOW,
           seq := s.tickCounter + 1, conn := conn }],
      seqLog := s.seqLog ++ [s.tickCounter + 1] }

/-- Truthiness of the Python return value of add obj to tick queue: the
full branch executes a bare return (value None) and the success path falls
off the end of the function (value None), so the value returned to the
caller is falsy on both paths. -/
def addObjToTickQueueRetTruthy (s : EngineState) (conn : Nat)
    (isprio : Bool) : Bool :=
  if tickQueueFull s then false else false

/-- Lexicographic (priority, sequence) comparison, non-strict: exactly the
order queue.PriorityQueue uses on the tuples it stores (the third and
fourth components are never compared because sequence numbers are
distinct). -/
def ItemLe (a b : WorkItem) : Prop :=
  a.prio < b.prio ∨ (a.prio = b.prio ∧ a.seq ≤ b.seq)

instance (a b : WorkItem) : Decidable (ItemLe a b) :=
  inferInstanceAs (Decidable (a.prio < b.prio ∨ (a.prio = b.prio ∧ a.seq ≤ b.seq)))

/-- Lexicographic (priority, sequence) comparison, strict. -/
def ItemLt (a b : WorkItem) : Prop :=
  a.prio < b.prio ∨ (a.prio = b.prio ∧ a.seq < b.seq)

instance (a b : WorkItem) : Decidable (ItemLt a b) :=
  inferInstanceAs (Decidable (a.prio < b.prio ∨ (a.prio = b.prio ∧ a.seq < b.seq)))

/-- Remove the minimum element under ItemLe from a list: the observable
behaviour of PriorityQueue.get() on the modelled queue contents. -/
def popMin : List WorkItem → Option (WorkItem × List WorkItem)
  | [] => none
  | it :: rest =>
    match popMin rest with
    | none => some (it, [])
    | some (m, restMinus) =>
      if ItemLe it m then some (it, rest) else some (m, it :: restMinus)

/-- Repeatedly pop the minimum, with fuel. -/
def drainFuel : Nat → List WorkItem → List WorkItem
  | 0, _ => []
  | n + 1, l =>
    match popMin l with
    | none => []
    | some (m, r) => m :: drainFuel n r

/-- The order in which the worker would dequeue the current queue contents
if no further items were enqueued. -/
def drain (l : List WorkItem) : List WorkItem :=
  drainFuel l.length l

/-- Events on the tick queue: an enqueue attempt from the foreground
(tick() or a priority tick), or one blocking get() by the worker thread. -/
inductive TickEvent
  | enq (conn : Nat) (isprio : Bool)
  | deq
deriving DecidableEq, Repr

/-- One blocking get() by the worker: removes the minimal item. On an empty
queue get() blocks, so no state changes. -/
def dequeueTick (s : EngineState) : EngineState :=
  match popMin s.tickQueue with
  | none => s
  | some (_, r) => { s with tickQueue := r }

/-- Transition of the engine state under one tick-queue event. -/
def stepEvent (s : EngineState) : TickEvent → EngineState
  | .enq c p => addObjToTickQueue s c p
  | .deq => dequeueTick s

/-- Run a trace of tick-queue events. -/
def runEvents (s : EngineState) (es : List TickEvent) : EngineState :=
  es.foldl stepEvent s

theorem itemLe_total (a b : WorkItem) : ItemLe a b ∨ ItemLe b a := by
  unfold ItemLe
  rcases Nat.lt_trichotomy a.prio b.prio with h | h | h
  · exact Or.inl (Or.inl h)
  · rcases Nat.le_total a.seq b.seq with h2 | h2
    · exact Or.inl (Or.inr ⟨h, h2⟩)
    · exact Or.inr (Or.inr ⟨h.symm, h2⟩)
  · exact Or.inr (Or.inl h)

theorem itemLe_trans {a b c : WorkItem} (h1 : ItemLe a b) (h2 : ItemLe b c) :
    ItemLe a c := by
  rcases h1 with h1 | ⟨h1, h1s⟩ <;> rcases h2 with h2 | ⟨h2, h2s⟩
  · exact Or.inl (h1.trans h2)
  · exact Or.inl (h2 ▸ h1)
  · exact Or.inl (h1 ▸ h2)
  · exact Or.inr ⟨h1.trans h2, h1s.trans h2s⟩

theorem itemLt_of_le_of_ne {a b : WorkItem} (h : ItemLe a b)
    (hne : a.seq ≠ b.seq) : ItemLt a b := by
  rcases h with h | ⟨h, hs⟩
  · exact Or.inl h
  · exact Or.inr ⟨h, lt_of_le_of_ne hs hne⟩

theorem popMin_none : ∀ {l : List WorkItem}, popMin l = none → l = [] := by
  intro l h
  cases l with
  | nil => rfl
  | cons it rest =>
    simp only [popMin] at h
    split at h
    · simp at h
    · split at h <;> simp at h

theorem popMin_perm : ∀ {l : List WorkItem} {m : WorkItem} {r : List WorkItem},
    popMin l = some (m, r) → l.Perm (m :: r)
  | [], _, _, h => by simp [popMin] at h
  | it :: rest, m, r, h => by
    simp only [popMin] at h
    split at h
    next hrest =>
      have hnil : rest = [] := popMin_none hrest
      subst hnil
      obtain ⟨h1, h2⟩ : it = m ∧ ([] : List WorkItem) = r := by simpa using h
      subst h1; subst h2
      exact List.Perm.refl _
    next m2 r2 hrest =>
      by_cases hle : ItemLe it m2
      · rw [if_pos hle] at h
        obtain ⟨h1, h2⟩ : it = m ∧ rest = r := by simpa using h
        subst h1; subst h2
        exact List.Perm.refl _
      · rw [if_neg hle] at h
        obtain ⟨h1, h2⟩ : m2 = m ∧ it :: r2 = r := by simpa using h
        subst h1; subst h2
        have ih : rest.Perm (m2 :: r2) := popMin_perm hrest
        exact (ih.cons it).trans (List.Perm.swap m2 it r2)

theorem popMin_min : ∀ {l : List WorkItem} {m : WorkItem} {r : List WorkItem},
    popMin l = some (m, r) → ∀ x ∈ r, ItemLe m x
  | [], _, _, h => by simp [popMin] at h
  | it :: rest, m, r, h => by
    simp only [popMin] at h
    split at h
    next hrest =>
      obtain ⟨h1, h2⟩ : it = m ∧ ([] : List WorkItem) = r := by simpa using h
      subst h1; subst h2
      intro x hx
      exact absurd hx (by simp)
    next m2 r2 hrest =>
      by_cases hle : ItemLe it m2
      · rw [if_pos hle] at h
        obtain ⟨h1, h2⟩ : it = m ∧ rest = r := by simpa using h
        subst h1; subst h2
        intro x hx
        have hx2 : x ∈ m2 :: r2 := (popMin_perm hrest).mem_iff.mp hx
        rcases List.mem_cons.mp hx2 with hx2 | hx2
        · subst hx2; exact hle
        · exact itemLe_trans hle (popMin_min hrest x hx2)
      · rw [if_neg hle] at h
        obtain ⟨h1, h2⟩ : m2 = m ∧ it :: r2 = r := by simpa using h
        subst h1; subst h2
        have hm2 : ItemLe m2 it := by
          rcases itemLe_total it m2 with htot | htot
          · exact absurd htot hle
          · exact htot
        intro x hx
        rcases List.mem_cons.mp hx with hx | hx
        · subst hx; exact hm2
        · exact popMin_min hrest x hx

theorem popMin_sublist :
    ∀ {l : List WorkItem} {m : WorkItem} {r : List WorkItem},
      popMin l = some (m, r) → r.Sublist l
  | [], _, _, h => by simp [popMin] at h
  | it :: rest, m, r, h => by
    simp only [popMin] at h
    split at h
    next hrest =>
      obtain ⟨h1, h2⟩ : it = m ∧ ([] : List WorkItem) = r := by simpa using h
      subst h2
      exact List.nil_sublist _
    next m2 r2 hrest =>
      by_cases hle : ItemLe it m2
      · rw [if_pos hle] at h
        obtain ⟨h1, h2⟩ : it = m ∧ rest = r := by simpa using h
        subst h2
        exact (List.Sublist.refl rest).cons it
      · rw [if_neg hle] at h
        obtain ⟨h1, h2⟩ : m2 = m ∧ it :: r2 = r := by simpa using h
        subst h2
        exact (popMin_sublist hrest).cons₂ it

theorem drainFuel_spec : ∀ (n : Nat) (l : List WorkItem), l.length ≤ n →
    (drainFuel n l).Perm l ∧ (drainFuel n l).Pairwise ItemLe
  | 0, l, h => by
    have hnil : l = [] := List.length_eq_zero.mp (Nat.le_zero.mp h)
    subst hnil
    simp [drainFuel]
  | n + 1, l, h => by
    simp only [drainFuel]
    cases hp : popMin l with
    | none =>
      have hnil : l = [] := popMin_none hp
      subst hnil
      simp
    | some p =>
      obtain ⟨m, r⟩ := p
      have hperm : l.Perm (m :: r) := popMin_perm hp
      have hlen : r.length ≤ n := by
        have := hperm.length_eq
        simp only [List.length_cons] at this
        omega
      obtain ⟨ihp, ihs⟩ := drainFuel_spec n r hlen
      constructor
      · exact (ihp.cons m).trans hperm.symm
      · refine List.pairwise_cons.mpr ⟨?_, ihs⟩
        intro x hx
        exact popMin_min hp x (ihp.mem_iff.mp hx)

theorem drain_perm (l : List WorkItem) : (drain l).Perm l :=
  (drainFuel_spec l.length l le_rfl).1

theorem drain_pairwise_le (l : List WorkItem) : (drain l).Pairwise ItemLe :=
  (drainFuel_spec l.length l le_rfl).2

theorem pairwise_and {α : Type} {R S : α → α → Prop} :
    ∀ {l : List α}, l.Pairwise R → l.Pairwise S →
      l.Pairwise fun a b => R a b ∧ S a b
  | [], _, _ => List.Pairwise.nil
  | a :: l, hr, hs => by
    rw [List.pairwise_cons] at hr hs ⊢
    exact ⟨fun x hx => ⟨hr.1 x hx, hs.1 x hx⟩, pairwise_and hr.2 hs.2⟩

theorem drain_pairwise_lt {l : List WorkItem}
    (h : l.Pairwise fun a b => a.seq ≠ b.seq) :
    (drain l).Pairwise ItemLt := by
  have hne : (drain l).Pairwise fun a b => a.seq ≠ b.seq :=
    h.perm (drain_perm l).symm fun hab => hab.symm
  exact (pairwise_and (drain_pairwise_le l) hne).imp
    fun hab => itemLt_of_le_of_ne hab.1 hab.2

/-- Invariant of the tick queue: pending items have strictly increasing
sequence numbers in insertion order, all bounded by the tick counter. -/
def QueueInv (s : EngineState) : Prop :=
  s.tickQueue.Pairwise (fun a b => a.seq < b.seq) ∧
  ∀ it ∈ s.tickQueue, it.seq ≤ s.tickCounter

theorem queueInv_init : QueueInv engineInit := by
  constructor <;> simp [engineInit]

theorem queueInv_step (s : EngineState) (e : TickEvent) (h : QueueInv s) :
    QueueInv (stepEvent s e) := by
  obtain ⟨hpw, hbound⟩ := h
  cases e with
  | enq c p =>
    simp only [stepEvent, addObjToTickQueue]
    split
    · split
      · exact ⟨hpw, hbound⟩
      · exact ⟨hpw, hbound⟩
    · constructor
      · simp only []
        rw [List.pairwise_append]
        refine ⟨hpw, List.pairwise_singleton _ _, ?_⟩
        intro a ha b hb
        simp only [List.mem_singleton] at hb
        subst hb
        have := hbound a ha
        simp only []
        omega
      · intro it hit
        simp only [List.mem_append, List.mem_singleton] at hit
        rcases hit with hit | hit
        · have := hbound it hit
          simp only []
          omega
        · subst hit
          simp
  | deq =>
    simp only [stepEvent, dequeueTick]
    cases hp : popMin s.tickQueue with
    | none => exact ⟨hpw, hbound⟩
    | some pr =>
      obtain ⟨m, r⟩ := pr
      have hsub := popMin_sublist hp
      exact ⟨hpw.sublist hsub, fun it hit => hbound it (hsub.subset hit)⟩

theorem runEvents_invariant (P : EngineState → Prop)
    (hstep : ∀ s e, P s → P (stepEvent s e)) :
    ∀ (es : List TickEvent) (s : EngineState), P s → P (runEvents s es)
  | [], _, h => h
  | e :: es, s, h =>
    runEvents_invariant P hstep es (stepEvent s e) (hstep s e h)

theorem queueInv_run (es : List TickEvent) : QueueInv (runEvents engineInit es) :=
  runEvents_invariant QueueInv queueInv_step es engineInit queueInv_init

theorem dequeueTick_maxsize (s : EngineState) :
    (dequeueTick s).maxsize = s.maxsize := by
  unfold dequeueTick; split <;> rfl

theorem dequeueTick_tickCounter (s : EngineState) :
    (dequeueTick s).tickCounter = s.tickCounter := by
  unfold dequeueTick; split <;> rfl

theorem dequeueTick_tickThreadSlow (s : EngineState) :
    (dequeueTick s).tickThreadSlow = s.tickThreadSlow := by
  unfold dequeueTick; split <;> rfl

theorem dequeueTick_slowLogCount (s : EngineState) :
    (dequeueTick s).slowLogCount = s.slowLogCount := by
  unfold dequeueTick; split <;> rfl

theorem dequeueTick_seqLog (s : EngineState) :
    (dequeueTick s).seqLog = s.seqLog := by
  unfold dequeueTick; split <;> rfl

theorem slowLog_step (s : EngineState) (e : TickEvent)
    (h : s.slowLogCount = if s.tickThreadSlow then 1 else 0) :
    (stepEvent s e).slowLogCount =
      if (stepEvent s e).tickThreadSlow then 1 else 0 := by
  cases e with
  | enq c p =>
    simp only [stepEvent, addObjToTickQueue]
    split
    · split
      next hslow =>
        have hf : s.tickThreadSlow = false := by simpa using hslow
        rw [hf, if_neg (by simp)] at h
        simp [h]
      next => exact h
    · exact h
  | deq =>
    simp only [stepEvent]
    simp only [dequeueTick_slowLogCount, dequeueTick_tickThreadSlow]
    exact h

/-- The degraded-mode notice count always matches the slow flag; since the
flag is set once and never reset, the notice is logged at most once over the
whole lifetime of the engine. -/
theorem slowLog_flag (es : List TickEvent) :
    (runEvents engineInit es).slowLogCount =
      if (runEvents engineInit es).tickThreadSlow then 1 else 0 :=
  runEvents_invariant
    (fun s => s.slowLogCount = if s.tickThreadSlow then 1 else 0)
    slowLog_step es engineInit (by simp [engineInit])

theorem queueLen_step (s : EngineState) (e : TickEvent)
    (h : s.maxsize = 100 ∧ s.tickQueue.length ≤ 100) :
    (stepEvent s e).maxsize = 100 ∧ (stepEvent s e).tickQueue.length ≤ 100 := by
  obtain ⟨hm, hlen⟩ := h
  cases e with
  | enq c p =>
    simp only [stepEvent, addObjToTickQueue]
    split
    next hfull => split <;> exact ⟨hm, hlen⟩
    next hfull =>
      refine ⟨hm, ?_⟩
      simp only [List.length_append, List.length_cons, List.length_nil]
      have hnf : ¬(0 < s.maxsize ∧ s.maxsize ≤ s.tickQueue.length) := by
        simpa [tickQueueFull] using hfull
      omega
  | deq =>
    simp only [stepEvent]
    refine ⟨by rw [dequeueTick_maxsize]; exact hm, ?_⟩
    unfold dequeueTick
    split
    · exact hlen
    next m r hpm =>
      have hle := (popMin_sublist hpm).length_le
      simp only
      omega

theorem queueLen_run (es : List TickEvent) :
    (runEvents engineInit es).tickQueue.length ≤ 100 :=
  (runEvents_invariant (fun s => s.maxsize = 100 ∧ s.tickQueue.length ≤ 100)
    queueLen_step es engineInit (by simp [engineInit])).2

theorem range1_concat (n : Nat) :
    List.range' 1 (n + 1) = List.range' 1 n ++ [n + 1] := by
  have h := @List.range'_concat 1 1 n
  simpa [Nat.add_comm] using h

theorem seqLog_step (s : EngineState) (e : TickEvent)
    (h : s.seqLog = List.range' 1 s.tickCounter) :
    (stepEvent s e).seqLog = List.range' 1 (stepEvent s e).tickCounter := by
  cases e with
  | enq c p =>
    simp only [stepEvent, addObjToTickQueue]
    split
    · split <;> exact h
    · simp only
      rw [h, range1_concat]
  | deq =>
    simp only [stepEvent]
    rw [dequeueTick_seqLog, dequeueTick_tickCounter]
    exact h

theorem seqLog_run (es : List TickEvent) :
    (runEvents engineInit es).seqLog =
      List.range' 1 (runEvents engineInit es).tickCounter :=
  runEvents_invariant (fun s => s.seqLog = List.range' 1 s.tickCounter)
    seqLog_step es engineInit rfl

/-- Every enqueue of a trace that stays at or under capacity is accepted,
appending its item in insertion order with the priority computed from the
isprio flag. -/
theorem runEnq_all_accepted :
    ∀ (pairs : List (Nat × Bool)) (s : EngineState), s.maxsize = 100 →
      s.tickQueue.length + pairs.length ≤ 100 →
      (runEvents s (pairs.map fun q => TickEvent.enq q.1 q.2)).tickQueue.map
          (fun it => (it.conn, it.prio)) =
        s.tickQueue.map (fun it => (it.conn, it.prio)) ++
          pairs.map (fun q => (q.1, if q.2 then PRIO_HIGH else PRIO_LOW))
  | [], s, hm, hlen => by simp [runEvents]
  | q :: pairs, s, hm, hlen => by
    have hlen1 : s.tickQueue.length + pairs.length + 1 ≤ 100 := by
      simp only [List.length_cons] at hlen
      omega
    have hnotfull : ¬(tickQueueFull s = true) := by
      simp only [tickQueueFull, Bool.and_eq_true, decide_eq_true_eq, not_and,
        not_le]
      intro _
      omega
    have hstep : stepEvent s (TickEvent.enq q.1 q.2) =
        { s with
          tickCounter := s.tickCounter + 1,
          tickQueue := s.tickQueue ++
            [{ prio := if q.2 then PRIO_HIGH else PRIO_LOW,
               seq := s.tickCounter + 1, conn := q.1 }],
          seqLog := s.seqLog ++ [s.tickCounter + 1] } := by
      simp only [stepEvent, addObjToTickQueue, if_neg hnotfull]
    have hrec := runEnq_all_accepted pairs
      { s with
        tickCounter := s.tickCounter + 1,
        tickQueue := s.tickQueue ++
          [{ prio := if q.2 then PRIO_HIGH else PRIO_LOW,
             seq := s.tickCounter + 1, conn := q.1 }],
        seqLog := s.seqLog ++ [s.tickCounter + 1] }
      hm (by simp only [List.length_append, List.length_cons, List.length_nil]; omega)
    show (runEvents (stepEvent s (TickEvent.enq q.1 q.2))
        (pairs.map fun p => TickEvent.enq p.1 p.2)).tickQueue.map
          (fun it => (it.conn, it.prio)) = _
    rw [hstep, hrec]
    simp [List.map_append]

/-- A reachable engine state whose tick queue is exactly at capacity:
one hundred accepted low-priority enqueues from the initial state. -/
def fullState : EngineState :=
  runEvents engineInit (List.replicate 100 (TickEvent.enq 0 false))

/-- C1: for every sequence of enqueue calls made while the work queue is
under capacity, every item is accepted in insertion order (first conjunct),
sequence numbers increase along insertion order, so FIFO order and sequence
order agree (second conjunct), and the worker dequeue order is a
permutation of the queue contents arranged in strictly ascending
(priority, sequence) order: every PRIO_HIGH item leaves before every
PRIO_LOW item and, within one priority class, items leave in sequence
(that is, insertion) order (third and fourth conjuncts). -/
theorem c1_dequeue_order (pairs : List (Nat × Bool)) (h : pairs.length ≤ 100) :
    ((runEvents engineInit (pairs.map fun q => TickEvent.enq q.1 q.2)).tickQueue.map
        (fun it => (it.conn, it.prio)) =
      pairs.map fun q => (q.1, if q.2 then PRIO_HIGH else PRIO_LOW)) ∧
    (runEvents engineInit (pairs.map fun q => TickEvent.enq q.1 q.2)).tickQueue.Pairwise
      (fun a b => a.seq < b.seq) ∧
    (drain (runEvents engineInit (pairs.map fun q => TickEvent.enq q.1 q.2)).tickQueue).Perm
      (runEvents engineInit (pairs.map fun q => TickEvent.enq q.1 q.2)).tickQueue ∧
    (drain (runEvents engineInit (pairs.map fun q => TickEvent.enq q.1 q.2)).tickQueue).Pairwise
      ItemLt := by
  have hacc := runEnq_all_accepted pairs engineInit rfl
    (by simpa [engineInit] using h)
  have hinv := queueInv_run (pairs.map fun q => TickEvent.enq q.1 q.2)
  refine ⟨by simpa [engineInit] using hacc, hinv.1, drain_perm _,
    drain_pairwise_lt (hinv.1.imp fun hab => Nat.ne_of_lt hab)⟩

/-- Witness for c1_dequeue_order at the claim scenario: enqueue
(LOW, connA = 0), (HIGH, connB = 1), (LOW, connC = 2); the dequeue order
is connB, connA, connC. -/
theorem c1_dequeue_order_witness :
    ([((0 : Nat), false), (1, true), (2, false)] : List (Nat × Bool)).length ≤ 100 ∧
    (drain (runEvents engineInit
        ([((0 : Nat), false), (1, true), (2, false)].map
          fun q => TickEvent.enq q.1 q.2)).tickQueue).Pairwise ItemLt ∧
    (drain (runEvents engineInit
        ([((0 : Nat), false), (1, true), (2, false)].map
          fun q => TickEvent.enq q.1 q.2)).tickQueue).map
      (fun it => it.conn) = [1, 0, 2] :=
  ⟨by decide, (c1_dequeue_order [(0, false), (1, true), (2, false)]
    (by decide)).2.2.2, by decide⟩

/-- C2 counterexample: the claim states that a successful under-capacity
enqueue returns true, but add obj to tick queue has no return value: at the
initial state the queue is under capacity and the enqueue does insert an
item, yet the value returned to the caller is None, hence falsy, exactly as
on the rejection path. -/
theorem c2_enqueue_returns_cex :
    tickQueueFull engineInit = false ∧
    (addObjToTickQueue engineInit 7 false).tickQueue.length = 1 ∧
    addObjToTickQueueRetTruthy engineInit 7 false = false ∧
    addObjToTickQueueRetTruthy fullState 7 false = false := by decide

/-- C2 amended: enqueue never blocks and signals nothing through its
return value, which is None on both paths; when the queue is at capacity
no item is added and the counter is untouched; when under capacity the
item is appended with the freshly assigned increasing sequence number
tickCounter + 1; and in every reachable state the queue holds at most 100
items. -/
theorem c2_enqueue_contract :
    (∀ (s : EngineState) (c : Nat) (p : Bool), tickQueueFull s = true →
      (addObjToTickQueue s c p).tickQueue = s.tickQueue ∧
      (addObjToTickQueue s c p).tickCounter = s.tickCounter) ∧
    (∀ (s : EngineState) (c : Nat) (p : Bool), tickQueueFull s = false →
      (addObjToTickQueue s c p).tickQueue = s.tickQueue ++
        [{ prio := if p then PRIO_HIGH else PRIO_LOW,
           seq := s.tickCounter + 1, conn := c }] ∧
      (addObjToTickQueue s c p).tickCounter = s.tickCounter + 1) ∧
    (∀ (s : EngineState) (c : Nat) (p : Bool),
      addObjToTickQueueRetTruthy s c p = false) ∧
    (∀ es : List TickEvent, (runEvents engineInit es).tickQueue.length ≤ 100) := by
  refine ⟨?_, ?_, ?_, queueLen_run⟩
  · intro s c p hfull
    simp only [addObjToTickQueue, hfull, if_true]
    split <;> simp
  · intro s c p hfull
    simp only [addObjToTickQueue, hfull, Bool.false_eq_true, if_false]
    simp
  · intro s c p
    simp only [addObjToTickQueueRetTruthy]
    split <;> rfl

/-- Witness for c2_enqueue_contract: the at-capacity hypothesis holds at
fullState and the under-capacity hypothesis at the initial state. -/
theorem c2_enqueue_contract_witness :
    tickQueueFull fullState = true ∧ tickQueueFull engineInit = false ∧
    (addObjToTickQueue fullState 5 true).tickQueue = fullState.tickQueue ∧
    (addObjToTickQueue engineInit 5 true).tickQueue =
      [{ prio := PRIO_HIGH, seq := 1, conn := 5 }] :=
  ⟨by decide, by decide,
    (c2_enqueue_contract.1 fullState 5 true (by decide)).1,
    by
      have h := (c2_enqueue_contract.2.1 engineInit 5 true (by decide)).1
      simpa [engineInit] using h⟩

/-- Saturation, rejection, one dequeue relieving the pressure, then a
second saturation episode with another rejection. -/
def c4t1 : List TickEvent :=
  List.replicate 100 (TickEvent.enq 0 false) ++ [TickEvent.enq 1 false]

/-- c4t1 followed by one worker dequeue: queue drops below capacity. -/
def c4t2 : List TickEvent := c4t1 ++ [TickEvent.deq]

/-- c4t2 followed by one accepted enqueue: queue is saturated again. -/
def c4t3 : List TickEvent := c4t2 ++ [TickEvent.enq 2 false]

/-- c4t3 followed by one more enqueue, rejected by the second saturation. -/
def c4t4 : List TickEvent := c4t3 ++ [TickEvent.enq 3 false]

/-- C4 counterexample: after the first saturation the 101st enqueue is
rejected and the degraded-mode notice is logged once; a dequeue then drops
the queue below capacity (queue pressure clears), an accepted enqueue
saturates it again and a further enqueue is rejected (the counter does not
move), yet the notice count is still 1: contrary to the claim, the
suppression does not end when the queue drops below capacity. -/
theorem c4_slow_notice_cex :
    (runEvents engineInit c4t1).slowLogCount = 1 ∧
    (runEvents engineInit c4t1).tickCounter = 100 ∧
    (runEvents engineInit c4t2).tickQueue.length = 99 ∧
    (runEvents engineInit c4t3).tickQueue.length = 100 ∧
    (runEvents engineInit c4t3).tickCounter = 101 ∧
    (runEvents engineInit c4t4).tickCounter = 101 ∧
    (runEvents engineInit c4t4).slowLogCount = 1 := by decide

/-- C4 amended: the degraded-mode notice is emitted at most once over the
whole lifetime of the engine: the suppression flag is set on the first
rejection and never cleared, so the notice count always equals the flag
and in particular never exceeds one, even across later saturation
episodes. -/
theorem c4_slow_notice_amended (es : List TickEvent) :
    (runEvents engineInit es).slowLogCount =
      (if (runEvents engineInit es).tickThreadSlow then 1 else 0) ∧
    (runEvents engineInit es).slowLogCount ≤ 1 := by
  have h := slowLog_flag es
  refine ⟨h, ?_⟩
  rw [h]
  split <;> omega

/-- C10: sequence numbers are consumed only by accepted enqueues: a
rejected (queue-full) enqueue changes neither the tick counter nor the
assignment log, and over every trace the assigned sequence numbers are
exactly 1, 2, ..., tickCounter: consecutive, strictly increasing, without
gaps, one per successfully enqueued item. -/
theorem c10_seq_numbers :
    (∀ (s : EngineState) (c : Nat) (p : Bool), tickQueueFull s = true →
      (addObjToTickQueue s c p).tickCounter = s.tickCounter ∧
      (addObjToTickQueue s c p).seqLog = s.seqLog) ∧
    (∀ es : List TickEvent,
      (runEvents engineInit es).seqLog =
        List.range' 1 (runEvents engineInit es).tickCounter ∧
      (runEvents engineInit es).seqLog.length =
        (runEvents engineInit es).tickCounter) := by
  constructor
  · intro s c p hfull
    simp only [addObjToTickQueue, hfull, if_true]
    split <;> simp
  · intro es
    have h := seqLog_run es
    exact ⟨h, by rw [h, List.length_range']⟩

/-- Witness for c10_seq_numbers: a rejected enqueue at the saturated state
consumes no sequence number, and a small concrete trace has sequence log
[1]. -/
theorem c10_seq_numbers_witness :
    tickQueueFull fullState = true ∧
    (addObjToTickQueue fullState 9 false).tickCounter = fullState.tickCounter ∧
    (runEvents engineInit [TickEvent.enq 4 true]).seqLog =
      List.range' 1 (runEvents engineInit [TickEvent.enq 4 true]).tickCounter :=
  ⟨by decide, (c10_seq_numbers.1 fullState 9 false (by decide)).1,
    (c10_seq_numbers.2 [TickEvent.enq 4 true]).1⟩

/-- A connection as seen by the tick worker: its uri and the outcome of
conn.tick_from_engine(**kwargs), either success or an exception carrying
the exception text and the formatted traceback. -/
structure Conn where
  uri : String
  tickOutcome : Except (String × String) Unit

/-- State of the tick worker loop, engine.py lines 360-374: the local
variable conn (cleared after each item, line 372), the uris for which
tick_from_engine was invoked in order, the (message, traceback) pairs
relayed to the foreground thread via idle_add, and the number of
task_done calls. -/
structure WorkerState where
  connRef : Option String
  ticked : List String
  idleErrors : List (String × String)
  tasksDone : Nat

/-- engine.py lines 366-368: the message built for a failed poll,
Error polling connection \x27uri\x27: e. -/
def tickErrorMsg (uri e : String) : String :=
  "Error polling connection \x27" ++ uri ++ "\x27: " ++ e

/-- One iteration of the worker loop body after get() returned the given
connection: tick_from_engine runs inside try/except; on exception the
formatted message and traceback are relayed to the foreground via
idle_add; then the conn reference is cleared and task_done is called. -/
def workerStep (ws : WorkerState) (c : Conn) : WorkerState :=
  let ws1 : WorkerState :=
    { ws with connRef := some c.uri, ticked := ws.ticked ++ [c.uri] }
  let ws2 : WorkerState :=
    match c.tickOutcome with
    | .ok _ => ws1
    | .error ⟨e, tb⟩ =>
      { ws1 with idleErrors := ws1.idleErrors ++ [(tickErrorMsg c.uri e, tb)] }
  { ws2 with connRef := none, tasksDone := ws2.tasksDone + 1 }

/-- The worker loop run over a finite batch of dequeued items. -/
def workerRun (ws : WorkerState) : List Conn → WorkerState
  | [] => ws
  | c :: cs => workerRun (workerStep ws c) cs

/-- Worker state before any item has been processed. -/
def workerInit : WorkerState :=
  { connRef := none, ticked := [], idleErrors := [], tasksDone := 0 }

/-- The relayed error pairs a batch of polled connections contributes. -/
def expectedErrors : List Conn → List (String × String)
  | [] => []
  | c :: cs =>
    match c.tickOutcome with
    | .ok _ => expectedErrors cs
    | .error ⟨e, tb⟩ => (tickErrorMsg c.uri e, tb) :: expectedErrors cs

theorem workerStep_ticked (ws : WorkerState) (c : Conn) :
    (workerStep ws c).ticked = ws.ticked ++ [c.uri] := by
  unfold workerStep
  rcases c with ⟨u, out⟩
  rcases out with ⟨e, tb⟩ | _ <;> rfl

theorem workerStep_idleErrors (ws : WorkerState) (c : Conn) (cs : List Conn) :
    (workerStep ws c).idleErrors ++ expectedErrors cs =
      ws.idleErrors ++ expectedErrors (c :: cs) := by
  rcases c with ⟨u, out⟩
  rcases out with ⟨e, tb⟩ | _ <;> simp [workerStep, expectedErrors]

theorem workerStep_tasksDone (ws : WorkerState) (c : Conn) :
    (workerStep ws c).tasksDone = ws.tasksDone + 1 := by
  unfold workerStep
  rcases c with ⟨u, out⟩
  rcases out with ⟨e, tb⟩ | _ <;> rfl

theorem workerStep_connRef (ws : WorkerState) (c : Conn) :
    (workerStep ws c).connRef = none := by
  unfold workerStep
  rcases c with ⟨u, out⟩
  rcases out with ⟨e, tb⟩ | _ <;> rfl

/-- C3: failures are isolated per item: over any dequeued batch,
tick_from_engine is invoked for every item in dequeue order regardless of
earlier failures, so an error while processing item N never terminates the
loop nor prevents item N + 1; each failing item contributes exactly one
formatted (message, traceback) pair relayed via the deferred idle call, in
order; task_done runs once per item; and after any nonempty batch the
worker has cleared its connection reference. -/
theorem c3_worker_isolation (ws : WorkerState) (cs : List Conn) :
    (workerRun ws cs).ticked = ws.ticked ++ cs.map Conn.uri ∧
    (workerRun ws cs).idleErrors = ws.idleErrors ++ expectedErrors cs ∧
    (workerRun ws cs).tasksDone = ws.tasksDone + cs.length ∧
    (cs ≠ [] → (workerRun ws cs).connRef = none) := by
  induction cs generalizing ws with
  | nil => simp [workerRun, expectedErrors]
  | cons c cs ih =>
    obtain ⟨h1, h2, h3, h4⟩ := ih (workerStep ws c)
    refine ⟨?_, ?_, ?_, ?_⟩
    · show (workerRun (workerStep ws c) cs).ticked = _
      rw [h1, workerStep_ticked]
      simp
    · show (workerRun (workerStep ws c) cs).idleErrors = _
      rw [h2, workerStep_idleErrors]
    · show (workerRun (workerStep ws c) cs).tasksDone = _
      rw [h3, workerStep_tasksDone]
      simp only [List.length_cons]
      omega
    · intro _
      cases cs with
      | nil => exact workerStep_connRef ws c
      | cons d ds => exact h4 (by simp)

/-- A connection whose poll raises. -/
def connBad : Conn :=
  { uri := "qemu+ssh://bad", tickOutcome := .error ("boom", "tb0") }

/-- A connection whose poll succeeds. -/
def connGood : Conn :=
  { uri := "qemu:///system", tickOutcome := .ok () }

/-- Witness for c3_worker_isolation: a failing first item does not prevent
the second item from being polled, and afterwards the conn reference is
cleared. -/
theorem c3_worker_isolation_witness :
    ([connBad, connGood] ≠ ([] : List Conn)) ∧
    (workerRun workerInit [connBad, connGood]).ticked =
      ["qemu+ssh://bad", "qemu:///system"] ∧
    (workerRun workerInit [connBad, connGood]).connRef = none :=
  ⟨by simp,
    by
      have h := (c3_worker_isolation workerInit [connBad, connGood]).1
      simpa [workerInit, connBad, connGood] using h,
    (c3_worker_isolation workerInit [connBad, connGood]).2.2.2 (by simp)⟩

/-- Window open/close events wired to increment/decrement of the window
counter, engine.py lines 377-386. -/
inductive WinEvent
  | opened
  | closed
deriving DecidableEq, Repr

/-- increment window counter runs self.windows += 1; decrement runs
self.windows -= 1; Python ints, no clamping anywhere. -/
def applyWinEvent (w : Int) : WinEvent → Int
  | .opened => w + 1
  | .closed => w - 1

/-- The window counter after a trace of open/close events. -/
def runWinEvents (w : Int) (es : List WinEvent) : Int :=
  es.foldl applyWinEvent w

/-- Number of increment calls in a trace. -/
def countOpened (es : List WinEvent) : Nat :=
  es.countP fun e => match e with | .opened => true | .closed => false

/-- Number of decrement calls in a trace. -/
def countClosed (es : List WinEvent) : Nat :=
  es.countP fun e => match e with | .opened => false | .closed => true

theorem runWinEvents_eq (w : Int) :
    ∀ es : List WinEvent,
      runWinEvents w es = w + countOpened es - countClosed es
  | [] => by simp [runWinEvents, countOpened, countClosed]
  | e :: es => by
    have ih := runWinEvents_eq (applyWinEvent w e) es
    show runWinEvents (applyWinEvent w e) es = _
    rw [ih]
    cases e <;>
      simp [applyWinEvent, countOpened, countClosed, List.countP_cons] <;>
      omega

/-- C5: over every trace of window open/close events the counter starting
at zero ends at (#increments - #decrements), with no clamping in the code,
and under the pairing hypothesis that every prefix closes at most as many
windows as it opened, the counter is never observed negative at any
prefix of the trace. -/
theorem c5_window_counter (es : List WinEvent) :
    runWinEvents 0 es = (countOpened es : Int) - countClosed es ∧
    ((∀ n, n ≤ es.length →
        countClosed (es.take n) ≤ countOpened (es.take n)) →
      ∀ n, 0 ≤ runWinEvents 0 (es.take n)) := by
  constructor
  · rw [runWinEvents_eq 0 es]
    omega
  · intro hp n
    rw [runWinEvents_eq 0 (es.take n)]
    rcases le_or_lt n es.length with hle | hlt
    · have := hp n hle
      omega
    · have htake : es.take n = es := List.take_of_length_le (le_of_lt hlt)
      rw [htake]
      have hall := hp es.length le_rfl
      rw [List.take_length] at hall
      omega

/-- Witness for c5_window_counter on the trace open, open, close, close:
every prefix is balanced, so every prefix of the run is nonnegative. -/
theorem c5_window_counter_witness :
    (∀ n, n ≤ ([WinEvent.opened, WinEvent.opened, WinEvent.closed,
        WinEvent.closed] : List WinEvent).length →
      countClosed (([WinEvent.opened, WinEvent.opened, WinEvent.closed,
        WinEvent.closed] : List WinEvent).take n) ≤
      countOpened (([WinEvent.opened, WinEvent.opened, WinEvent.closed,
        WinEvent.closed] : List WinEvent).take n)) ∧
    (∀ n, 0 ≤ runWinEvents 0 (([WinEvent.opened, WinEvent.opened,
        WinEvent.closed, WinEvent.closed] : List WinEvent).take n)) :=
  ⟨by decide, (c5_window_counter _).2 (by decide)⟩

/-- Lifecycle state for the no-window exit logic: the window counter,
whether self.err is still set (exit_app returns immediately once cleanup
has set it to None), the systray (none, or some flag telling whether its
icon is visible), the number of idle callbacks posted by exit app if no
windows and not yet run, and how many times the quit path executed. -/
structure LifeState where
  windows : Int
  errAlive : Bool
  systray : Option Bool
  pendingChecks : Nat
  exits : Nat
deriving DecidableEq, Repr

/-- engine.py lines 388-392: exit is possible iff no windows remain, the
systray object exists, and its icon is not visible. -/
def canExit (s : LifeState) : Bool :=
  decide (s.windows ≤ 0) && (s.systray == some false)

/-- engine.py lines 435-456 together with cleanup, lines 394-426:
exit_app returns at once when self.err is None; otherwise cleanup clears
err and the systray, and the application quits. -/
def exitApp (s : LifeState) : LifeState :=
  if !s.errAlive then s
  else { s with errAlive := false, systray := none, exits := s.exits + 1 }

/-- engine.py lines 377-380. -/
def incrementWindowCounter (s : LifeState) : LifeState :=
  { s with windows := s.windows + 1 }

/-- engine.py lines 382-386: decrement the counter, then post the
deferred check (exit app if no windows uses idle_add, line 433). -/
def decrementWindowCounter (s : LifeState) : LifeState :=
  { s with windows := s.windows - 1, pendingChecks := s.pendingChecks + 1 }

/-- Run one pending idle callback posted by exit app if no windows
(engine.py lines 428-433): if can exit holds, call exit_app. -/
def runIdleCheck (s : LifeState) : LifeState :=
  if s.pendingChecks = 0 then s
  else
    let s1 : LifeState := { s with pendingChecks := s.pendingChecks - 1 }
    if canExit s1 then exitApp s1 else s1

/-- n window-close events in quick succession, before any idle callback
gets to run. -/
def iterDec : Nat → LifeState → LifeState
  | 0, s => s
  | n + 1, s => iterDec n (decrementWindowCounter s)

/-- Run n pending idle callbacks. -/
def iterChecks : Nat → LifeState → LifeState
  | 0, s => s
  | n + 1, s => iterChecks n (runIdleCheck s)

theorem iterDec_windows : ∀ (n : Nat) (s : LifeState),
    (iterDec n s).windows = s.windows - n
  | 0, s => by simp [iterDec]
  | n + 1, s => by
    rw [iterDec, iterDec_windows n]
    simp only [decrementWindowCounter]
    omega

theorem iterDec_pending : ∀ (n : Nat) (s : LifeState),
    (iterDec n s).pendingChecks = s.pendingChecks + n
  | 0, s => by simp [iterDec]
  | n + 1, s => by
    rw [iterDec, iterDec_pending n]
    simp only [decrementWindowCounter]
    omega

theorem iterDec_exits : ∀ (n : Nat) (s : LifeState),
    (iterDec n s).exits = s.exits
  | 0, _ => rfl
  | n + 1, s => by rw [iterDec, iterDec_exits n]; rfl

theorem iterDec_errAlive : ∀ (n : Nat) (s : LifeState),
    (iterDec n s).errAlive = s.errAlive
  | 0, _ => rfl
  | n + 1, s => by rw [iterDec, iterDec_errAlive n]; rfl

theorem iterDec_systray : ∀ (n : Nat) (s : LifeState),
    (iterDec n s).systray = s.systray
  | 0, _ => rfl
  | n + 1, s => by rw [iterDec, iterDec_systray n]; rfl

theorem runIdleCheck_systray_none (s : LifeState) (h : s.systray = none) :
    (runIdleCheck s).exits = s.exits ∧ (runIdleCheck s).systray = none := by
  unfold runIdleCheck
  split
  · exact ⟨rfl, h⟩
  · have hce : canExit { s with pendingChecks := s.pendingChecks - 1 } = false := by
      simp [canExit, h]
    rw [if_neg (by simp [hce])]
    exact ⟨rfl, h⟩

theorem iterChecks_systray_none : ∀ (n : Nat) (s : LifeState),
    s.systray = none → (iterChecks n s).exits = s.exits
  | 0, _, _ => rfl
  | n + 1, s, h => by
    rw [iterChecks]
    obtain ⟨he, hs⟩ := runIdleCheck_systray_none s h
    rw [iterChecks_systray_none n _ hs, he]

/-- C6: with the systray present but its icon not visible (background
presence disabled) and n windows open, closing all n windows in quick
succession performs no synchronous shutdown: each decrement only posts a
deferred idle check; and running the n posted idle checks initiates
shutdown exactly once: the first check calls exit_app, whose cleanup
clears self.err and the systray, so every later pending check returns
without quitting again. -/
theorem c6_exit_once (n : Nat) (s0 : LifeState) (hn : 1 ≤ n)
    (hw : s0.windows = n) (herr : s0.errAlive = true)
    (hsys : s0.systray = some false) (hpend : s0.pendingChecks = 0)
    (hex : s0.exits = 0) :
    (iterDec n s0).exits = 0 ∧
    (iterChecks n (iterDec n s0)).exits = 1 := by
  have hd_exits : (iterDec n s0).exits = 0 := by rw [iterDec_exits, hex]
  refine ⟨hd_exits, ?_⟩
  obtain ⟨k, rfl⟩ : ∃ k, n = k + 1 := ⟨n - 1, by omega⟩
  have hw2 : (iterDec (k + 1) s0).windows = 0 := by
    rw [iterDec_windows, hw]
    omega
  have hpend2 : (iterDec (k + 1) s0).pendingChecks = k + 1 := by
    rw [iterDec_pending, hpend]
    omega
  have herr2 : (iterDec (k + 1) s0).errAlive = true := by
    rw [iterDec_errAlive]
    exact herr
  have hsys2 : (iterDec (k + 1) s0).systray = some false := by
    rw [iterDec_systray]
    exact hsys
  rw [iterChecks]
  have hpne : ¬((iterDec (k + 1) s0).pendingChecks = 0) := by
    rw [hpend2]
    omega
  have hfirst : (runIdleCheck (iterDec (k + 1) s0)).exits =
      (iterDec (k + 1) s0).exits + 1 ∧
      (runIdleCheck (iterDec (k + 1) s0)).systray = none := by
    unfold runIdleCheck
    rw [if_neg hpne]
    have hce : canExit
        { iterDec (k + 1) s0 with
          pendingChecks := (iterDec (k + 1) s0).pendingChecks - 1 } = true := by
      simp [canExit, hw2, hsys2]
    simp only [hce, if_true]
    unfold exitApp
    simp [herr2]
  rw [iterChecks_systray_none k _ hfirst.2, hfirst.1, hd_exits]

/-- A lifecycle state with three open windows, live error handling, and a
systray whose icon is hidden. -/
def lifeEx : LifeState :=
  { windows := 3, errAlive := true, systray := some false,
    pendingChecks := 0, exits := 0 }

/-- Witness for c6_exit_once: closing all three windows posts three
deferred checks and no synchronous exit; running them exits exactly once. -/
theorem c6_exit_once_witness :
    (1 ≤ 3 ∧ lifeEx.windows = 3 ∧ lifeEx.errAlive = true ∧
      lifeEx.systray = some false ∧ lifeEx.pendingChecks = 0 ∧
      lifeEx.exits = 0) ∧
    (iterDec 3 lifeEx).exits = 0 ∧ (iterChecks 3 (iterDec 3 lifeEx)).exits = 1 :=
  ⟨⟨by decide, by decide, by decide, by decide, by decide, by decide⟩,
    c6_exit_once 3 lifeEx (by decide) (by decide) (by decide) (by decide)
      (by decide) (by decide)⟩

/-- Liveness of a connection as exposed by is_disconnected,
is_connecting and is_active. -/
inductive ConnLife
  | disconnected
  | connecting
  | active
deriving DecidableEq, Repr

/-- Observable effect of one run of do handle cli command, engine.py
lines 866-894: whether the endpoint was registered via add conn, whether
an asynchronous connect_to_uri was posted via idle_add, the window launch
posted via idle_add (if any), whether the opt-out state-changed callback
was registered, and whether the manager window was shown instead. -/
structure CliDispatch where
  registeredEndpoint : Bool
  scheduledOpen : Bool
  idleLaunch : Option (String × String × String)
  optOutRegistered : Bool
  showedManager : Bool
deriving DecidableEq, Repr

/-- engine.py lines 866-894, do handle cli command on the variant
(uri, show_window, domain): an empty uri just shows the manager;
otherwise the endpoint is registered, a disconnected endpoint gets an
asynchronous connection open scheduled, and with a window request an
active connection launches at once via idle_add while any other state
defers the launch to the state-changed opt-out callback; without a window
request the manager is shown. -/
def doHandleCliCommand (st : ConnLife) (uri show_window domain : String) :
    CliDispatch :=
  if uri = "" then
    { registeredEndpoint := false, scheduledOpen := false, idleLaunch := none,
      optOutRegistered := false, showedManager := true }
  else
    let scheduledOpen := st == ConnLife.disconnected
    if show_window ≠ "" then
      if st == ConnLife.active then
        { registeredEndpoint := true, scheduledOpen := scheduledOpen,
          idleLaunch := some (uri, show_window, domain),
          optOutRegistered := false, showedManager := false }
      else
        { registeredEndpoint := true, scheduledOpen := scheduledOpen,
          idleLaunch := none, optOutRegistered := true,
          showedManager := false }
    else
      { registeredEndpoint := true, scheduledOpen := scheduledOpen,
        idleLaunch := none, optOutRegistered := false, showedManager := true }

/-- Observable outcome of one invocation of cli conn connected cb,
engine.py lines 848-864: what was launched, whether the connection
failure was logged, and the returned value: True disconnects the opt-out
signal handler, so the command is finished and never retried. -/
structure CbOutcome where
  launched : Option (String × String × String)
  errorLogged : Bool
  detach : Bool
deriving DecidableEq, Repr

/-- engine.py lines 848-864: on a disconnected state the callback raises
RuntimeError, the except block logs the failure, posts the no-window exit
check, and returns True; on an active state the requested window is
launched and True is returned; otherwise (still connecting) False is
returned so the callback stays attached to the state-changed signal. -/
def cliConnConnectedCb (st : ConnLife) (uri show_window domain : String) :
    CbOutcome :=
  if st == ConnLife.disconnected then
    { launched := none, errorLogged := true, detach := true }
  else if st == ConnLife.active then
    { launched := some (uri, show_window, domain), errorLogged := false,
      detach := true }
  else
    { launched := none, errorLogged := false, detach := false }

/-- C7: for a cli command naming a uri and a window kind: when the
endpoint is disconnected the dispatcher registers it, schedules an
asynchronous connection open and defers the launch to the state-changed
callback (no immediate launch); when the state change reports active the
callback launches the requested window and detaches; when it reports
disconnected the failure is logged, no window is launched, and the
callback detaches, so the command is aborted and never retried; while
still connecting the callback stays attached; and when the endpoint is
already active the dispatcher launches the window immediately via
idle_add, registering no callback. -/
theorem c7_cli_dispatch (uri show_window domain : String) (hu : uri ≠ "")
    (hw : show_window ≠ "") :
    (doHandleCliCommand ConnLife.disconnected uri show_window domain =
      { registeredEndpoint := true, scheduledOpen := true, idleLaunch := none,
        optOutRegistered := true, showedManager := false }) ∧
    (cliConnConnectedCb ConnLife.active uri show_window domain =
      { launched := some (uri, show_window, domain), errorLogged := false,
        detach := true }) ∧
    (cliConnConnectedCb ConnLife.disconnected uri show_window domain =
      { launched := none, errorLogged := true, detach := true }) ∧
    (cliConnConnectedCb ConnLife.connecting uri show_window domain =
      { launched := none, errorLogged := false, detach := false }) ∧
    (doHandleCliCommand ConnLife.active uri show_window domain =
      { registeredEndpoint := true, scheduledOpen := false,
        idleLaunch := some (uri, show_window, domain),
        optOutRegistered := false, showedManager := false }) := by
  refine ⟨?_, rfl, rfl, rfl, ?_⟩
  · simp [doHandleCliCommand, hu, hw]
  · simp [doHandleCliCommand, hu, hw]

/-- Witness for c7_cli_dispatch at the claim scenario
uri qemu:///system, window kind console, domain 42. -/
theorem c7_cli_dispatch_witness :
    ("qemu:///system" ≠ "") ∧ ("console" ≠ "") ∧
    cliConnConnectedCb ConnLife.active "qemu:///system" "console" "42" =
      { launched := some ("qemu:///system", "console", "42"),
        errorLogged := false, detach := true } ∧
    cliConnConnectedCb ConnLife.disconnected "qemu:///system" "console" "42" =
      { launched := none, errorLogged := true, detach := true } :=
  ⟨by decide, by decide,
    (c7_cli_dispatch "qemu:///system" "console" "42" (by decide)
      (by decide)).2.1,
    (c7_cli_dispatch "qemu:///system" "console" "42" (by decide)
      (by decide)).2.2.1⟩

/-- A virtual machine as consumed by find vm by cli str: the numeric id
(get_id returns an int), the name and the uuid. -/
structure VM where
  id : Nat
  name : String
  uuid : String
deriving DecidableEq, Repr

/-- Python str.isdigit for ASCII strings: nonempty and all digits
(stated over the character list of the string). -/
def isDigitStr (s : String) : Bool :=
  !s.data.isEmpty && s.data.all Char.isDigit

/-- Python int() on a digit string: base-ten value of the digits. -/
def strToNat (s : String) : Nat :=
  s.data.foldl (fun acc c => acc * 10 + (c.toNat - 48)) 0

/-- The value the cli string holds after engine.py lines 785-786: a
digit-only string is converted with int() before any comparison. -/
inductive CliKey
  | num (n : Nat)
  | str (s : String)
deriving DecidableEq, Repr

def parseCliStr (s : String) : CliKey :=
  if isDigitStr s then CliKey.num (strToNat s) else CliKey.str s

/-- One loop iteration of find vm by cli str, engine.py lines 788-794:
the converted cli value is compared with get_id(), then get_name(), then
get_uuid().  Python == between an int and a str is False, so a numeric
key can only equal the id and a string key only the name or the uuid. -/
def vmMatchesKey (k : CliKey) (vm : VM) : Bool :=
  match k with
  | CliKey.num n => n == vm.id
  | CliKey.str s => s == vm.name || s == vm.uuid

/-- engine.py lines 780-794: scan list_vms() once in list order and
return the first vm whose id, name or uuid equals the (converted) cli
string; None when nothing matches. -/
def findVmByCliStr (vms : List VM) (clistr : String) : Option VM :=
  vms.find? (vmMatchesKey (parseCliStr clistr))

/-- The resolution order the claim describes, for comparison: all vms
tried for an exact numeric id match first, then all for an exact name
match, then all for an exact uuid match. -/
def findVmSpecOrder (vms : List VM) (clistr : String) : Option VM :=
  ((if isDigitStr clistr then
      vms.find? fun vm => strToNat clistr == vm.id
    else none).orElse fun _ =>
    ((vms.find? fun vm => clistr == vm.name).orElse fun _ =>
      vms.find? fun vm => clistr == vm.uuid))

/-- A vm with numeric id 7 whose NAME is the digit string 42. -/
def vmNamed42 : VM := { id := 7, name := "42", uuid := "u-1" }

/-- C8 counterexample: on the cli string 42 the resolution order the claim
states (exact numeric id, then exact name, then exact uuid) would find
vmNamed42 through the name match, but the code converts the digit string
to the int 42 before its single scan and an int never equals a name or
uuid string in Python, so the code finds no vm at all: the first match
under the claimed order is not the vm the code uses. -/
theorem c8_find_vm_cex :
    findVmByCliStr [vmNamed42] "42" = none ∧
    findVmSpecOrder [vmNamed42] "42" = some vmNamed42 := by decide

/-- C8 amended: the vm list is scanned once in list order and the first
vm matching is returned; a digit-only target is converted to an int and
can match only the numeric id, never a name or uuid, while any other
target can match only the name or the uuid (name checked before uuid for
each vm); a found vm is a member that matches, and nothing is returned
exactly when no vm matches. -/
theorem c8_find_vm_amended (vms : List VM) (clistr : String) :
    (isDigitStr clistr = true →
      findVmByCliStr vms clistr =
        vms.find? fun vm => strToNat clistr == vm.id) ∧
    (isDigitStr clistr = false →
      findVmByCliStr vms clistr =
        vms.find? fun vm => clistr == vm.name || clistr == vm.uuid) ∧
    (∀ vm, findVmByCliStr vms clistr = some vm →
      vm ∈ vms ∧ vmMatchesKey (parseCliStr clistr) vm = true) ∧
    (findVmByCliStr vms clistr = none ↔
      ∀ vm ∈ vms, vmMatchesKey (parseCliStr clistr) vm = false) := by
  refine ⟨?_, ?_, ?_, ?_⟩
  · intro h
    unfold findVmByCliStr parseCliStr
    rw [if_pos h]
    rfl
  · intro h
    unfold findVmByCliStr parseCliStr
    rw [if_neg (by simp [h])]
    rfl
  · intro vm h
    exact ⟨List.mem_of_find?_eq_some h, List.find?_some h⟩
  · unfold findVmByCliStr
    rw [List.find?_eq_none]
    constructor
    · intro h vm hvm
      simpa using h vm hvm
    · intro h vm hvm
      simp [h vm hvm]

/-- A first vm. -/
def vmAlpha : VM := { id := 1, name := "alpha", uuid := "aaaa" }

/-- A second vm whose uuid collides with the name of the first. -/
def vmBeta : VM := { id := 2, name := "beta", uuid := "alpha" }

/-- Witness for c8_find_vm_amended: a digit target resolves by id alone
and a word target by name or uuid. -/
theorem c8_find_vm_witness :
    isDigitStr "1" = true ∧
    findVmByCliStr [vmAlpha, vmBeta] "1" =
      ([vmAlpha, vmBeta].find? fun vm => strToNat "1" == vm.id) ∧
    isDigitStr "alpha" = false ∧
    findVmByCliStr [vmAlpha, vmBeta] "alpha" =
      ([vmAlpha, vmBeta].find? fun vm =>
        "alpha" == vm.name || "alpha" == vm.uuid) :=
  ⟨by decide, (c8_find_vm_amended [vmAlpha, vmBeta] "1").1 (by decide),
    by decide, (c8_find_vm_amended [vmAlpha, vmBeta] "alpha").2.1 (by decide)⟩

/-- engine.py lines 53-61, class _ConnState: per-endpoint ui state with
the probe flag and the clone, details and host window slots (window
handles are abstract identifiers). -/
structure ConnUiState where
  uri : String
  probeConnection : Bool
  windowClone : Option Nat
  windowDetails : List (String × Nat)
  windowHost : Option Nat
deriving DecidableEq, Repr

/-- A _ConnState as built by its constructor: probe flag stored and no
open windows. -/
def mkConnState (uri : String) (probe : Bool) : ConnUiState :=
  { uri := uri, probeConnection := probe, windowClone := none,
    windowDetails := [], windowHost := none }

/-- A connection object as held by the connection manager, carrying the
signal names the engine has connected on it, in order. -/
structure ConnObj where
  uri : String
  handlers : List String
deriving DecidableEq, Repr

/-- The registry: the engine connstates and the connection manager conns,
both keyed by uri, as association lists in insertion order. -/
structure EngineReg where
  connstates : List (String × ConnUiState)
  connobjs : List (String × ConnObj)
deriving DecidableEq, Repr

/-- Modelled from the spec: vmmConnectionManager.add_conn (connmanager.py
is not under src/); registering an endpoint in the manager live set is
create-or-return keyed by uri. -/
def mgrAddConn (objs : List (String × ConnObj)) (uri : String) :
    List (String × ConnObj) × ConnObj :=
  match objs.lookup uri with
  | some c => (objs, c)
  | none =>
    let c : ConnObj := { uri := uri, handlers := [] }
    (objs ++ [(uri, c)], c)

/-- engine.py lines 487-491: the five signals the engine wires on a newly
added connection, in order. -/
def engineSignals : List String :=
  ["vm-removed", "vm-renamed", "state-changed", "connect-error",
   "priority-tick"]

/-- conn.connect(...) mutates the object aliased by the manager dict:
the stored entry under the same key receives the handlers. -/
def connectSignals (objs : List (String × ConnObj)) (uri : String) :
    List (String × ConnObj) :=
  objs.map fun p =>
    if p.1 = uri then
      (p.1, { p.2 with handlers := p.2.handlers ++ engineSignals })
    else p

/-- engine.py lines 481-493, add conn: when the uri is already
registered, return the manager object for it (none models the KeyError
on an inconsistent registry); otherwise build the default _ConnState,
register the connection with the manager, wire the five engine
callbacks, store the connstate, and return the connection. -/
def addConn (reg : EngineReg) (uri : String) (probe : Bool) :
    EngineReg × Option ConnObj :=
  match reg.connstates.lookup uri with
  | some _ => (reg, reg.connobjs.lookup uri)
  | none =>
    let connstate := mkConnState uri probe
    let res := mgrAddConn reg.connobjs uri
    ({ connstates := reg.connstates ++ [(uri, connstate)],
       connobjs := connectSignals res.1 uri },
     (connectSignals res.1 uri).lookup uri)

theorem lookup_cons {β : Type} (u k : String) (v : β)
    (l : List (String × β)) :
    ((k, v) :: l).lookup u = if u == k then some v else l.lookup u := by
  cases h : u == k <;> simp [List.lookup, h]

theorem lookup_append_right {β : Type} :
    ∀ (l m : List (String × β)) (u : String),
      l.lookup u = none → (l ++ m).lookup u = m.lookup u
  | [], _, _, _ => rfl
  | (k, v) :: l, m, u, h => by
    rw [List.cons_append, lookup_cons]
    rw [lookup_cons] at h
    cases hk : u == k with
    | true => rw [hk] at h; simp at h
    | false =>
      rw [hk] at h
      simp only [Bool.false_eq_true, if_false]
      exact lookup_append_right l m u h

theorem lookup_append_self {β : Type} (l : List (String × β)) (u : String)
    (v : β) (h : l.lookup u = none) :
    (l ++ [(u, v)]).lookup u = some v := by
  rw [lookup_append_right l [(u, v)] u h, lookup_cons]
  simp

theorem lookup_connectSignals :
    ∀ (objs : List (String × ConnObj)) (u : String),
      (connectSignals objs u).lookup u =
        (objs.lookup u).map
          fun c => { c with handlers := c.handlers ++ engineSignals }
  | [], _ => rfl
  | (k, v) :: objs, u => by
    simp only [connectSignals, List.map_cons]
    by_cases hk : k = u
    · subst hk
      rw [if_pos rfl]
      rw [lookup_cons, lookup_cons]
      simp
    · rw [if_neg hk]
      rw [lookup_cons, lookup_cons]
      have hne : (u == k) = false := by
        simp only [beq_eq_false_iff_ne, ne_eq]
        exact fun he => hk he.symm
      rw [hne]
      simp only [Bool.false_eq_true, if_false]
      exact lookup_connectSignals objs u

theorem addConn_already (reg : EngineReg) (uri : String) (probe : Bool)
    (c : ConnUiState) (h : reg.connstates.lookup uri = some c) :
    addConn reg uri probe = (reg, reg.connobjs.lookup uri) := by
  unfold addConn
  rw [h]

/-- C9: add conn is idempotent. For a fresh uri it returns a connection
wired with the five engine callbacks (state change, vm removed, vm
renamed, connection error, priority tick), registers the default ui
state for the probe flag, stores the very connection object it returns
in the manager set, and a second add of the same uri with either probe
flag changes nothing and returns the existing object: adding the same
uri twice yields the same registry state as adding it once. -/
theorem c9_add_conn_idempotent (reg : EngineReg) (uri : String)
    (probe : Bool) (hcs : reg.connstates.lookup uri = none)
    (hco : reg.connobjs.lookup uri = none) :
    (addConn reg uri probe).2 =
      some { uri := uri, handlers := engineSignals } ∧
    (addConn reg uri probe).1.connstates.lookup uri =
      some (mkConnState uri probe) ∧
    (addConn reg uri probe).1.connobjs.lookup uri =
      (addConn reg uri probe).2 ∧
    (∀ probe2 : Bool,
      addConn (addConn reg uri probe).1 uri probe2 = addConn reg uri probe) := by
  have hmgr : mgrAddConn reg.connobjs uri =
      (reg.connobjs ++ [(uri, { uri := uri, handlers := [] })],
        { uri := uri, handlers := [] }) := by
    unfold mgrAddConn
    rw [hco]
  have ha : addConn reg uri probe =
      ({ connstates := reg.connstates ++ [(uri, mkConnState uri probe)],
         connobjs := connectSignals
           (reg.connobjs ++ [(uri, { uri := uri, handlers := [] })]) uri },
       (connectSignals
           (reg.connobjs ++ [(uri, { uri := uri, handlers := [] })])
           uri).lookup uri) := by
    unfold addConn
    rw [hcs, hmgr]
  have hlook : (connectSignals
      (reg.connobjs ++ [(uri, { uri := uri, handlers := [] })]) uri).lookup
        uri = some { uri := uri, handlers := engineSignals } := by
    rw [lookup_connectSignals, lookup_append_self reg.connobjs uri _ hco]
    rfl
  have hstates : (reg.connstates ++
      [(uri, mkConnState uri probe)]).lookup uri =
        some (mkConnState uri probe) :=
    lookup_append_self reg.connstates uri _ hcs
  refine ⟨?_, ?_, ?_, ?_⟩
  · rw [ha]
    exact hlook
  · rw [ha]
    exact hstates
  · rw [ha]
  · intro probe2
    rw [ha, addConn_already _ uri probe2 (mkConnState uri probe) hstates]

/-- Witness for c9_add_conn_idempotent: adding qemu:///system twice to
the empty registry equals adding it once, and the returned connection is
wired with the five engine signals. -/
theorem c9_add_conn_idempotent_witness :
    (([] : List (String × ConnUiState)).lookup "qemu:///system" = none) ∧
    (([] : List (String × ConnObj)).lookup "qemu:///system" = none) ∧
    (addConn { connstates := [], connobjs := [] } "qemu:///system" true).2 =
      some { uri := "qemu:///system", handlers := engineSignals } ∧
    (∀ probe2 : Bool,
      addConn
        (addConn { connstates := [], connobjs := [] } "qemu:///system"
          true).1 "qemu:///system" probe2 =
        addConn { connstates := [], connobjs := [] } "qemu:///system" true) :=
  ⟨rfl, rfl,
    (c9_add_conn_idempotent ⟨[], []⟩ "qemu:///system" true rfl rfl).1,
    (c9_add_conn_idempotent ⟨[], []⟩ "qemu:///system" true rfl rfl).2.2.2⟩

end VirtEngine
